import Mathlib

/-!
# Verification of the do-rl-worker rate-limiting gateway

Shallow embedding of the request-path core of the `do-rl-worker`
repository: the sliding-window counter (`src/rate-limiter.js`), the
condition evaluator and rule matcher (`src/condition-evaluator.js`),
the fingerprinter (`src/fingerprint.js`), and the customResponse
action handler.  Times are epoch milliseconds, modelled as `Nat`.
JavaScript host primitives that cannot be embedded (SHA-256,
`JSON.parse`, `RegExp`, `parseFloat`) are abstracted into a `JSHost`
structure of parameters; everything else is translated directly from
the source.
-/

namespace DoRlWorker

/-! ## Sliding-window counter (`src/rate-limiter.js`, `checkRateLimit`)

`checkRateLimit(clientIdentifier, rule, now)` loads the stored
timestamp list for the key, prunes it with
`timestamps.filter((ts) => ts >= windowStart)` where
`windowStart = now - windowSize`, appends `now` when the pruned list
is shorter than `limit`, truncates with `timestamps.slice(-limit)`
when longer than `limit`, persists, and finally computes
`remaining`, `resetTime` from `timestamps[0] || now`.
-/

/-- JS `list.slice(-n)`: the last `n` elements, except that `-0 === 0`
so `slice(-0)` returns the whole list. -/
def jsSliceLast (n : Nat) (l : List Nat) : List Nat :=
  if n = 0 then l else l.drop (l.length - n)

/-- JS `timestamps[0] || dflt`: the first element unless the list is
empty or its head is the falsy number `0`. -/
def jsHeadOr (l : List Nat) (dflt : Nat) : Nat :=
  match l with
  | [] => dflt
  | t :: _ => if t = 0 then dflt else t

/-- Result of one `checkRateLimit` call: the returned record plus the
timestamp list written back to storage (`state.storage.put`). -/
structure CheckResult where
  isAllowed : Bool
  remaining : Nat
  resetTime : Nat
  persisted : List Nat
  deriving Repr, DecidableEq

/-- `checkRateLimit` from `src/rate-limiter.js` lines 373-404, with
`windowSize = rule.rateLimit.period * 1000` and the stored list passed
in explicitly.  `windowStart = now - windowSize` is clamped at 0 by
`Nat` subtraction, which agrees with the JS `ts >= windowStart` test
because every stored timestamp is a non-negative epoch value. -/
def checkRateLimit (limit windowSize : Nat) (stored : List Nat) (now : Nat) :
    CheckResult :=
  let windowStart := now - windowSize
  let pruned := stored.filter (fun ts => windowStart ≤ ts)
  let isAllowed := pruned.length < limit
  let appended := if isAllowed then pruned ++ [now] else pruned
  let kept := if appended.length > limit then jsSliceLast limit appended else appended
  let oldestTimestamp := jsHeadOr kept now
  let resetTime := max (oldestTimestamp + windowSize) (now + 1000)
  { isAllowed := isAllowed
    remaining := limit - kept.length
    resetTime := resetTime
    persisted := kept }

/-- Serial execution of `checkRateLimit` against one CounterKey:
each call sees the list persisted by the previous one.  Returns the
`isAllowed` verdicts in order and the final stored list. -/
def runCalls (limit windowSize : Nat) (stored : List Nat) :
    List Nat → List Bool × List Nat
  | [] => ([], stored)
  | t :: ts =>
    let r := checkRateLimit limit windowSize stored t
    let rest := runCalls limit windowSize r.persisted ts
    (r.isAllowed :: rest.1, rest.2)

/-- `(resetTime - now) / 1000` computed by the `fetch` handler as the
`retryAfter` value, in exact rational arithmetic. -/
def retryAfterOf (resetTime now : Nat) : ℚ :=
  max 0 ((resetTime : ℚ) - (now : ℚ)) / 1000

/-! ### Helper lemmas about the counter step -/

lemma jsSliceLast_length (n : Nat) (l : List Nat) (hn : 1 ≤ n)
    (hl : n < l.length) : (jsSliceLast n l).length = n := by
  unfold jsSliceLast
  rw [if_neg (by omega)]
  rw [List.length_drop]
  omega

lemma jsSliceLast_subset (n : Nat) (l : List Nat) : jsSliceLast n l ⊆ l := by
  unfold jsSliceLast
  split
  · exact fun a ha => ha
  · exact List.drop_subset _ l

/-- When every stored timestamp is still inside the window, the pruning
filter keeps the whole list. -/
lemma filter_window_eq_self (windowStart : Nat) (l : List Nat)
    (h : ∀ x ∈ l, windowStart ≤ x) :
    l.filter (fun ts => decide (windowStart ≤ ts)) = l := by
  apply List.filter_eq_self.mpr
  intro a ha
  simpa using h a ha

/-- Step characterization: if nothing is evicted and the stored list is
within the `limit` bound, `checkRateLimit` either appends `now` (when
below the limit) or leaves the list unchanged (when at the limit). -/
lemma checkRateLimit_step (limit windowSize : Nat) (stored : List Nat)
    (now : Nat) (hkeep : ∀ x ∈ stored, now - windowSize ≤ x)
    (hlen : stored.length ≤ limit) :
    (checkRateLimit limit windowSize stored now).isAllowed
        = decide (stored.length < limit)
  ∧ (checkRateLimit limit windowSize stored now).persisted
        = if stored.length < limit then stored ++ [now] else stored := by
  have hfilter : stored.filter (fun ts => decide (now - windowSize ≤ ts))
      = stored := filter_window_eq_self _ _ hkeep
  unfold checkRateLimit
  simp only [hfilter]
  by_cases hcase : stored.length < limit
  · have hnot : ¬ ((stored ++ [now]).length > limit) := by
      simp only [List.length_append, List.length_cons, List.length_nil]
      omega
    simp only [if_pos hcase, if_neg hnot]
    exact ⟨trivial, trivial⟩
  · have hnot : ¬ (stored.length > limit) := by omega
    simp only [if_neg hcase, if_neg hnot]
    exact ⟨trivial, trivial⟩

/-- Count of `true` verdicts over a serial run in which no timestamp
ever leaves the window: it is `min N (limit - |stored|)`. -/
lemma runCalls_count_true (limit windowSize t0 : Nat) (times stored : List Nat)
    (htimes : ∀ t ∈ times, t0 ≤ t ∧ t ≤ t0 + windowSize)
    (hstored : ∀ x ∈ stored, t0 ≤ x)
    (hlen : stored.length ≤ limit) :
    ((runCalls limit windowSize stored times).1.count true)
      = min times.length (limit - stored.length) := by
  induction times generalizing stored with
  | nil => simp [runCalls]
  | cons t rest ih =>
    have ht := htimes t (by simp)
    have hkeep : ∀ x ∈ stored, t - windowSize ≤ x := by
      intro x hx
      have := hstored x hx
      omega
    obtain ⟨hA, hP⟩ := checkRateLimit_step limit windowSize stored t hkeep hlen
    by_cases hcase : stored.length < limit
    · have hP' : (checkRateLimit limit windowSize stored t).persisted
          = stored ++ [t] := by rw [hP, if_pos hcase]
      have hA' : (checkRateLimit limit windowSize stored t).isAllowed = true := by
        rw [hA]; simp [hcase]
      have hrec := ih (stored ++ [t])
        (fun x hx => htimes x (List.mem_cons_of_mem t hx))
        (by
          intro x hx
          rcases List.mem_append.mp hx with h | h
          · exact hstored x h
          · simp only [List.mem_singleton] at h
            omega)
        (by
          rw [List.length_append]
          simp only [List.length_cons, List.length_nil]
          omega)
      simp only [runCalls, hP', hA']
      rw [List.count_cons_self, hrec]
      simp only [List.length_append, List.length_cons, List.length_nil]
      omega
    · have hP' : (checkRateLimit limit windowSize stored t).persisted
          = stored := by rw [hP, if_neg hcase]
      have hA' : (checkRateLimit limit windowSize stored t).isAllowed = false := by
        rw [hA]; simp [hcase]
      have hrec := ih stored
        (fun x hx => htimes x (List.mem_cons_of_mem t hx)) hstored hlen
      simp only [runCalls, hP', hA']
      rw [List.count_cons_of_ne (by simp), hrec]
      simp only [List.length_cons]
      omega

lemma count_false_add_count_true (bs : List Bool) :
    bs.count false + bs.count true = bs.length := by
  induction bs with
  | nil => simp
  | cons b l ih =>
    cases b
    · rw [List.count_cons_self, List.count_cons_of_ne (by simp)]
      simp only [List.length_cons]
      omega
    · rw [List.count_cons_self, List.count_cons_of_ne (by simp)]
      simp only [List.length_cons]
      omega

lemma runCalls_length (limit windowSize : Nat) (stored times : List Nat) :
    (runCalls limit windowSize stored times).1.length = times.length := by
  induction times generalizing stored with
  | nil => simp [runCalls]
  | cons t rest ih => simp [runCalls, ih]

/-- Shape of the list persisted by `checkRateLimit`: length stays within
`limit`. -/
lemma checkRateLimit_persisted_length (limit ws : Nat) (hl : 1 ≤ limit)
    (stored : List Nat) (now : Nat) :
    (checkRateLimit limit ws stored now).persisted.length ≤ limit := by
  simp only [checkRateLimit]
  split_ifs with h1 h2 h3
  · rw [jsSliceLast_length limit _ hl h2]
  · simp only [List.length_append, List.length_cons, List.length_nil] at h2 ⊢
    omega
  · rw [jsSliceLast_length limit _ hl h3]
  · omega

/-- Every persisted timestamp either survived the pruning filter or is
the current arrival time. -/
lemma checkRateLimit_persisted_mem (limit ws : Nat) (stored : List Nat)
    (now : Nat) :
    ∀ ts ∈ (checkRateLimit limit ws stored now).persisted,
      ts ∈ stored.filter (fun t => decide (now - ws ≤ t)) ∨ ts = now := by
  simp only [checkRateLimit]
  split_ifs with h1 h2 h3 <;> intro ts hts
  · rcases List.mem_append.mp (jsSliceLast_subset _ _ hts) with h | h
    · exact Or.inl h
    · right; simpa using h
  · rcases List.mem_append.mp hts with h | h
    · exact Or.inl h
    · right; simpa using h
  · exact Or.inl (jsSliceLast_subset _ _ hts)
  · exact Or.inl hts

/-- The persisted list is never empty (when `limit ≥ 1`): an allowed call
appends `now`, a denied call keeps at least `limit` entries. -/
lemma checkRateLimit_persisted_ne_nil (limit ws : Nat) (hl : 1 ≤ limit)
    (stored : List Nat) (now : Nat) :
    (checkRateLimit limit ws stored now).persisted ≠ [] := by
  simp only [checkRateLimit]
  split_ifs with h1 h2 h3 <;> intro hc
  · have := jsSliceLast_length limit _ hl h2
    rw [hc] at this
    simp only [List.length_nil] at this
    omega
  · simp at hc
  · have := jsSliceLast_length limit _ hl h3
    rw [hc] at this
    simp only [List.length_nil] at this
    omega
  · rw [hc] at h1
    simp only [List.length_nil] at h1
    omega

/-! ### Claim theorems about the counter -/

/-- C1: for every limit `L ≥ 1`, period `P ≥ 1` and sequence of requests
processed serially against the same CounterKey, starting from a fresh
key, with every arrival time within one period of the first, exactly
`min N L` calls return `isAllowed = true` and the other `N - min N L`
return `isAllowed = false`. -/
theorem checkRateLimit_serial_min_allowed
    (L P t0 : Nat) (rest : List Nat) (hL : 1 ≤ L) (hP : 1 ≤ P)
    (hwin : ∀ t ∈ t0 :: rest, t0 ≤ t ∧ t ≤ t0 + P * 1000) :
    ((runCalls L (P * 1000) [] (t0 :: rest)).1.count true)
        = min (t0 :: rest).length L
  ∧ ((runCalls L (P * 1000) [] (t0 :: rest)).1.count false)
        = (t0 :: rest).length - min (t0 :: rest).length L := by
  have h1 := runCalls_count_true L (P * 1000) t0 (t0 :: rest) [] hwin
    (by simp) (by simp)
  simp only [List.length_nil, Nat.sub_zero] at h1
  refine ⟨h1, ?_⟩
  have h2 := count_false_add_count_true ((runCalls L (P * 1000) [] (t0 :: rest)).1)
  have h3 := runCalls_length L (P * 1000) [] (t0 :: rest)
  omega

/-- C1 witness: limit 2, period 1 s, three requests at 5 ms, 6 ms, 7 ms:
two allowed, one denied. -/
theorem checkRateLimit_serial_min_allowed_witness :
    ((runCalls 2 (1 * 1000) [] (5 :: [6, 7])).1.count true)
        = min (5 :: [6, 7] : List Nat).length 2
  ∧ ((runCalls 2 (1 * 1000) [] (5 :: [6, 7])).1.count false)
        = (5 :: [6, 7] : List Nat).length - min (5 :: [6, 7] : List Nat).length 2 :=
  checkRateLimit_serial_min_allowed 2 1 5 [6, 7] (by decide) (by decide) (by decide)

/-- C2 counterexample: with limit 1, period 1 s, stored list `[1000]` and
`now = 2000`, the boundary timestamp of age exactly `period*1000` is
retained by the `ts >= windowStart` filter, so the persisted list
violates the claimed strict bound `now - ts < period*1000`. -/
theorem checkRateLimit_boundary_cex :
    (checkRateLimit 1 (1 * 1000) [1000] 2000).persisted = [1000]
  ∧ ¬ (2000 - (1000 : Nat) < 1 * 1000) := by decide

/-- C2 (amended): at the end of every `checkRateLimit` call the persisted
list has length at most `limit` and every stored timestamp `ts`
satisfies `now - ts ≤ period*1000` — the inequality is non-strict
because a timestamp of age exactly `period*1000` is retained. -/
theorem checkRateLimit_window_invariant
    (limit P : Nat) (hl : 1 ≤ limit) (stored : List Nat) (now : Nat) :
    (checkRateLimit limit (P * 1000) stored now).persisted.length ≤ limit
  ∧ ∀ ts ∈ (checkRateLimit limit (P * 1000) stored now).persisted,
      now - ts ≤ P * 1000 := by
  refine ⟨checkRateLimit_persisted_length limit (P * 1000) hl stored now, ?_⟩
  intro ts hts
  rcases checkRateLimit_persisted_mem limit (P * 1000) stored now ts hts with h | h
  · have := (List.mem_filter.mp h).2
    simp only [decide_eq_true_eq] at this
    omega
  · omega

/-- C2 (amended) witness: limit 1, period 1 s, stored `[1000]`,
`now = 2000`. -/
theorem checkRateLimit_window_invariant_witness :
    (checkRateLimit 1 (1 * 1000) [1000] 2000).persisted.length ≤ 1
  ∧ ∀ ts ∈ (checkRateLimit 1 (1 * 1000) [1000] 2000).persisted,
      2000 - ts ≤ 1 * 1000 :=
  checkRateLimit_window_invariant 1 1 (by decide) [1000] 2000

/-- C10: a denied request consumes no window capacity — when
`checkRateLimit` returns `isAllowed = false` (and the loaded list is
within the `limit` bound, as every list persisted by a previous call
is), the persisted list is exactly the loaded list with expired entries
pruned; the arrival time is not recorded. -/
theorem checkRateLimit_denied_frame
    (limit ws : Nat) (stored : List Nat) (now : Nat)
    (hlen : stored.length ≤ limit)
    (hden : (checkRateLimit limit ws stored now).isAllowed = false) :
    (checkRateLimit limit ws stored now).persisted
      = stored.filter (fun ts => decide (now - ws ≤ ts)) := by
  have hA : (checkRateLimit limit ws stored now).isAllowed
      = decide ((stored.filter (fun ts => decide (now - ws ≤ ts))).length < limit) :=
    rfl
  rw [hA] at hden
  have hge : ¬ ((stored.filter (fun ts => decide (now - ws ≤ ts))).length < limit) := by
    simpa using hden
  have hle : (stored.filter (fun ts => decide (now - ws ≤ ts))).length
      ≤ stored.length := List.length_filter_le _ _
  simp only [checkRateLimit]
  rw [if_neg hge,
    if_neg (by omega :
      ¬ ((stored.filter (fun ts => decide (now - ws ≤ ts))).length > limit))]

/-- C10 witness: limit 1, stored `[5]`, a denied call at `now = 6`
persists the pruned list `[5]` unchanged. -/
theorem checkRateLimit_denied_frame_witness :
    (checkRateLimit 1 1000 [5] 6).persisted
      = ([5] : List Nat).filter (fun ts => decide (6 - 1000 ≤ ts)) :=
  checkRateLimit_denied_frame 1 1000 [5] 6 (by decide) (by decide)

/-- On lists whose entries are positive epoch timestamps, the JS
`timestamps[0] || now` idiom is just the head of the list. -/
lemma jsHeadOr_eq_headD (l : List Nat) (now : Nat) (hne : l ≠ [])
    (hpos : ∀ x ∈ l, 1 ≤ x) : jsHeadOr l now = l.headD 0 := by
  obtain ⟨a, l', rfl⟩ := List.exists_cons_of_ne_nil hne
  have ha : 1 ≤ a := hpos a (by simp)
  simp only [jsHeadOr, List.headD_cons]
  rw [if_neg (by omega)]

/-- C8: the returned record satisfies
`remaining = max 0 (limit - len(list))`,
`resetTime = max (list[0] + period*1000) (now + 1000)` for the persisted
list, hence `resetTime - now ≥ 1000` and the retry hint
`retryAfter = max 0 ((resetTime - now)/1000)` is at least one second.
(Timestamps are positive epoch values, so `timestamps[0] || now` reads
the actual head.) -/
theorem checkRateLimit_response_formulas
    (limit P : Nat) (stored : List Nat) (now : Nat)
    (hl : 1 ≤ limit) (hpos : ∀ ts ∈ stored, 1 ≤ ts) (hnow : 1 ≤ now) :
    ((checkRateLimit limit (P * 1000) stored now).remaining : ℤ)
        = max 0 ((limit : ℤ)
            - ((checkRateLimit limit (P * 1000) stored now).persisted.length : ℤ))
  ∧ (checkRateLimit limit (P * 1000) stored now).resetTime
        = max ((checkRateLimit limit (P * 1000) stored now).persisted.headD 0
            + P * 1000) (now + 1000)
  ∧ now + 1000 ≤ (checkRateLimit limit (P * 1000) stored now).resetTime
  ∧ 1 ≤ retryAfterOf (checkRateLimit limit (P * 1000) stored now).resetTime now := by
  have hrem : (checkRateLimit limit (P * 1000) stored now).remaining
      = limit - (checkRateLimit limit (P * 1000) stored now).persisted.length := rfl
  have hrt : (checkRateLimit limit (P * 1000) stored now).resetTime
      = max (jsHeadOr (checkRateLimit limit (P * 1000) stored now).persisted now
          + P * 1000) (now + 1000) := rfl
  have hne := checkRateLimit_persisted_ne_nil limit (P * 1000) hl stored now
  have hppos : ∀ x ∈ (checkRateLimit limit (P * 1000) stored now).persisted,
      1 ≤ x := by
    intro x hx
    rcases checkRateLimit_persisted_mem limit (P * 1000) stored now x hx with h | h
    · exact hpos x (List.mem_of_mem_filter h)
    · omega
  have hhead := jsHeadOr_eq_headD _ now hne hppos
  refine ⟨?_, ?_, ?_, ?_⟩
  · rw [hrem]
    omega
  · rw [hrt, hhead]
  · rw [hrt]
    exact le_max_right _ _
  · have h3 : now + 1000
        ≤ (checkRateLimit limit (P * 1000) stored now).resetTime := by
      rw [hrt]; exact le_max_right _ _
    unfold retryAfterOf
    have hq : (1000 : ℚ)
        ≤ ((checkRateLimit limit (P * 1000) stored now).resetTime : ℚ) - now := by
      have : ((now : ℚ) + 1000)
          ≤ ((checkRateLimit limit (P * 1000) stored now).resetTime : ℚ) := by
        exact_mod_cast h3
      linarith
    rw [max_eq_right (by linarith)]
    rw [le_div_iff₀ (by norm_num : (0 : ℚ) < 1000)]
    linarith

/-- C8 witness: limit 1, period 1 s, fresh key, request at `now = 5`. -/
theorem checkRateLimit_response_formulas_witness :
    ((checkRateLimit 1 (1 * 1000) [] 5).remaining : ℤ)
        = max 0 ((1 : ℤ) - ((checkRateLimit 1 (1 * 1000) [] 5).persisted.length : ℤ))
  ∧ (checkRateLimit 1 (1 * 1000) [] 5).resetTime
        = max ((checkRateLimit 1 (1 * 1000) [] 5).persisted.headD 0 + 1 * 1000)
            (5 + 1000)
  ∧ 5 + 1000 ≤ (checkRateLimit 1 (1 * 1000) [] 5).resetTime
  ∧ 1 ≤ retryAfterOf (checkRateLimit 1 (1 * 1000) [] 5).resetTime 5 :=
  checkRateLimit_response_formulas 1 1 [] 5 (by decide) (by simp) (by decide)

/-! ## JavaScript values and host primitives

The condition evaluator and fingerprinter manipulate dynamically typed
JS values (header strings, `cf` metadata objects, JSON bodies).  We
model them with `JSValue`.  Host primitives whose behaviour is outside
the source — `parseFloat`, `new RegExp`, `JSON.parse` and the SHA-256
`hashValue` — are parameters collected in `JSHost`; `none` models a
NaN result or a thrown error as noted on each field. -/

/-! Character-level implementations of the string operations the
source uses (`startsWith`, `split`, `toLowerCase`, `trim`, decimal
parsing); they mirror the JS semantics on the inputs the worker sees
and are written so concrete runs evaluate inside the kernel. -/

def chStartsWith (s p : String) : Bool := List.isPrefixOf p.data s.data

def chEndsWith (s p : String) : Bool :=
  List.isPrefixOf p.data.reverse s.data.reverse

def chToLower (s : String) : String := String.mk (s.data.map Char.toLower)

def splitOnChar (sep : Char) : List Char → List (List Char)
  | [] => [[]]
  | c :: rest =>
    let tail := splitOnChar sep rest
    if c == sep then [] :: tail
    else
      match tail with
      | [] => [[c]]
      | seg :: segs => (c :: seg) :: segs

/-- JS `s.split(sep)` for the single-character separators the source
uses (`"."`, `","`, `"/"`). -/
def chSplitChar (s : String) (sep : Char) : List String :=
  (splitOnChar sep s.data).map String.mk

/-- `needle` occurs as a contiguous run inside `hay`. -/
def hasInfixChars (hay needle : List Char) : Bool :=
  match hay with
  | [] => List.isPrefixOf needle []
  | _ :: rest => List.isPrefixOf needle hay || hasInfixChars rest needle

/-- JS `s.trim()`. -/
def chTrim (s : String) : String :=
  String.mk
    (((s.data.dropWhile Char.isWhitespace).reverse.dropWhile
        Char.isWhitespace).reverse)

/-- Decimal parse of a digit string; `none` models NaN. -/
def chToNatOpt (s : String) : Option Nat :=
  if s.data ≠ [] ∧ s.data.all Char.isDigit then
    some (s.data.foldl (fun n c => n * 10 + (c.toNat - 48)) 0)
  else none

inductive JSValue where
  | undefined
  | jsNull
  | bool (b : Bool)
  | num (n : Int)
  | str (s : String)
  | obj (fields : List (String × JSValue))
  deriving Repr

/-- Host primitives used by the source but defined by the JS runtime. -/
structure JSHost where
  /-- `parseFloat`; `none` models `NaN`. -/
  parseFloat : String → Option ℚ
  /-- `new RegExp(pattern)` plus `.test`; `none` models the
  `SyntaxError` thrown on an invalid pattern. -/
  regexCompile : String → Option (String → Bool)
  /-- `JSON.parse`; `none` models the `SyntaxError` thrown on invalid
  JSON. -/
  jsonParse : String → Option JSValue
  /-- `hashValue` from `src/utils.js`: hex SHA-256 of a string. -/
  hash : String → String

/-- JS truthiness. -/
def jsTruthy : JSValue → Bool
  | .undefined => false
  | .jsNull => false
  | .bool b => b
  | .num n => n != 0
  | .str s => s != ""
  | .obj _ => true

/-- JS `String(x)` coercion. -/
def jsString : JSValue → String
  | .undefined => "undefined"
  | .jsNull => "null"
  | .bool b => if b then "true" else "false"
  | .num n => toString n
  | .str s => s
  | .obj _ => "[object Object]"

def objLookup : List (String × JSValue) → String → Option JSValue
  | [], _ => none
  | (k, v) :: rest, key => if k = key then some v else objLookup rest key

/-- JS property access `cur[part]` on a value (non-objects yield
`undefined`). -/
def jsIndex : JSValue → String → JSValue
  | .obj fs, k => (objLookup fs k).getD .undefined
  | _, _ => .undefined

/-- `getNestedValue` from `src/condition-evaluator.js`:
`path.split(".").reduce((current, part) => current && current[part], obj)`
— a falsy intermediate value is returned as-is. -/
def getNestedValue (obj : JSValue) (path : String) : JSValue :=
  (chSplitChar path '.').foldl
    (fun cur part => if jsTruthy cur then jsIndex cur part else cur) obj

/-- A request as seen by the worker.  `urlObj` models the property map
of `new URL(request.url)`; `cf` the edge-metadata object; `body` the
buffered request body. -/
structure Request where
  url : String
  urlObj : JSValue
  method : String
  headers : List (String × String)
  cf : JSValue
  body : String

/-- `Headers.get`: case-insensitive lookup returning `null` when
absent. -/
def headersGet (headers : List (String × String)) (name : String) :
    Option String :=
  (headers.find? (fun p => chToLower p.1 == chToLower name)).map (fun p => p.2)

/-- `Headers.get` result as a JS value (`null` when absent). -/
def optStrToJS : Option String → JSValue
  | some s => .str s
  | none => .jsNull

/-- JS `a || b` restricted to the header-string chains used by the
source: take `a` unless it is null/empty. -/
def jsOrElse (a b : Option String) : Option String :=
  match a with
  | some s => if s = "" then b else some s
  | none => b

/-- First entry of an `X-Forwarded-For` header:
`h?.split(",")[0].trim()`. -/
def xffFirst (h : Option String) : Option String :=
  h.map (fun s => chTrim ((chSplitChar s ',').headD ""))

/-- `fieldFunctions.clientIP` from `src/condition-evaluator.js`:
`true-client-ip || cf-connecting-ip || x-forwarded-for[0] ||
request.cf?.clientIp`. -/
def fieldClientIP (req : Request) : JSValue :=
  match jsOrElse (jsOrElse (headersGet req.headers "true-client-ip")
      (headersGet req.headers "cf-connecting-ip"))
      (xffFirst (headersGet req.headers "x-forwarded-for")) with
  | some s => .str s
  | none => jsIndex req.cf "clientIp"

/-! ### Operator table (`operatorFunctions`) -/

/-- `parseInt(oct, 10)` on a dot-separated IPv4 string folded with
`(int << 8) + oct` and `>>> 0`: 32-bit unsigned accumulation.  `none`
models NaN (JS `parseInt` prefix-parsing of trailing garbage is not
modelled; it only differs on malformed octets). -/
def ipToInt (ip : String) : Option Nat :=
  ((chSplitChar ip '.').foldl
    (fun acc oct =>
      match acc, chToNatOpt oct with
      | some a, some o => some ((a * 256 + o) % 2 ^ 32)
      | _, _ => none)
    (some 0))

/-- `isIPInCIDR` from `src/condition-evaluator.js`:
`mask = ~(2 ** (32 - bits) - 1)`, compare `ip & mask` with
`range & mask` in 32-bit arithmetic. -/
def isIPInCIDR (ip cidr : String) : Bool :=
  let parts := chSplitChar cidr '/'
  let range := parts.headD ""
  let bits : Option Nat :=
    match parts.drop 1 with
    | [] => some 32
    | b :: _ => chToNatOpt b
  match bits, ipToInt ip, ipToInt range with
  | some bits, some ipInt, some rangeInt =>
    if bits ≤ 32 then
      let mask := (2 ^ 32 - 2 ^ (32 - bits)) % 2 ^ 32
      Nat.land ipInt mask == Nat.land rangeInt mask
    else false
  | _, _, _ => false

/-- Strict equality `a === b` against the (string) condition value. -/
def jsStrictEq : JSValue → String → Bool
  | .str s, b => s == b
  | _, _ => false

/-- JS `String(a).includes(b)`: `b` occurs in `a` (the empty string
occurs in everything). -/
def jsIncludes (a b : String) : Bool :=
  hasInfixChars a.data b.data

/-- Numeric comparison after `parseFloat` of both sides; any NaN makes
the comparison false. -/
def numCompare (host : JSHost) (cmp : ℚ → ℚ → Bool) (a : JSValue)
    (b : String) : Bool :=
  match host.parseFloat (jsString a), host.parseFloat b with
  | some x, some y => cmp x y
  | _, _ => false

/-- Error token for a thrown `TypeError` (e.g. calling `.split` on a
non-string in `isIPInCIDR`). -/
def typeErrorMsg : String := "TypeError"

/-- Error token for the `SyntaxError` thrown by `JSON.parse` on a
non-JSON body. -/
def jsonParseErrorMsg : String := "SyntaxError: JSON.parse"

/-- The `operatorFunctions` dispatch table.  Every entry is total
except the CIDR branch of `eq`, which calls `.split` on the resolved
field value and therefore throws when that value is not a string. -/
def applyOperator (host : JSHost) (o : String) (a : JSValue)
    (value field : String) : Except String Bool :=
  if o = "eq" then
    if field = "clientIP" && value.data.contains '/' then
      match a with
      | .str s => .ok (isIPInCIDR s value)
      | _ => .error typeErrorMsg
    else .ok (jsStrictEq a value)
  else if o = "ne" then .ok (!jsStrictEq a value)
  else if o = "gt" then .ok (numCompare host (fun x y => decide (y < x)) a value)
  else if o = "ge" then .ok (numCompare host (fun x y => decide (y ≤ x)) a value)
  else if o = "lt" then .ok (numCompare host (fun x y => decide (x < y)) a value)
  else if o = "le" then .ok (numCompare host (fun x y => decide (x ≤ y)) a value)
  else if o = "contains" then .ok (jsIncludes (jsString a) value)
  else if o = "not_contains" then .ok (!jsIncludes (jsString a) value)
  else if o = "starts_with" then .ok (chStartsWith (jsString a) value)
  else if o = "ends_with" then .ok (chEndsWith (jsString a) value)
  else if o = "matches" then
    match host.regexCompile value with
    | none => .ok false
    | some test => .ok (test (jsString a))
  else .ok false

/-- The keys of `operatorFunctions` (`!operatorFunctions[operator]`
check). -/
def operatorKnown (o : String) : Bool :=
  (["eq", "ne", "gt", "ge", "lt", "le", "contains", "not_contains",
    "starts_with", "ends_with", "matches"] : List String).contains o

/-- `evaluateCondition` from `src/condition-evaluator.js` lines
295-329.  The field namespace is resolved first (`url.`, `headers.`,
`cf.`, `body.`, then the `fieldFunctions` table), then the operator is
looked up (`return false` if unknown), then applied.  The `body.`
branch runs `JSON.parse` on the buffered body with no try/catch, so a
non-JSON body throws; the bare `cf` field calls
`getNestedValue(request.cf, undefined)` which also throws. -/
def evaluateCondition (host : JSHost) (req : Request)
    (field operator value : String) : Except String Bool :=
  let withValue : JSValue → Except String Bool := fun fieldValue =>
    if operatorKnown operator then
      applyOperator host operator fieldValue value field
    else .ok false
  if chStartsWith field "url." then
    withValue (getNestedValue req.urlObj (field.drop 4))
  else if chStartsWith field "headers." then
    withValue (optStrToJS (headersGet req.headers (field.drop 8)))
  else if chStartsWith field "cf." then
    withValue (getNestedValue req.cf (field.drop 3))
  else if chStartsWith field "body." then
    match host.jsonParse req.body with
    | none => .error jsonParseErrorMsg
    | some parsed => withValue (getNestedValue parsed (field.drop 5))
  else if field = "clientIP" then withValue (fieldClientIP req)
  else if field = "method" then withValue (.str req.method)
  else if field = "url" then withValue (.str req.url)
  else if field = "body" then withValue (.str req.body)
  else if field = "headers" then withValue .jsNull
  else if field = "cf" then .error typeErrorMsg
  else .ok false

/-- A node of a rule's condition tree: a leaf
`{field, operator, value}`, a nested group `{conditions: [...]}`, or a
mid-list logic switch `{type: "operator", logic}`. -/
inductive Condition where
  | leaf (field operator value : String)
  | group (conditions : List Condition)
  | logicSwitch (logic : String)
  deriving Repr

mutual

/-- The loop body of `evaluateConditions`: walks the condition list
with the current `logic` and accumulated `result`
(`result` starts as `logic === "and"`), switching logic on
`{type:"operator"}` entries and short-circuiting (`and` stops on the
first false, `or` on the first true). -/
def evalCondLoop (host : JSHost) (req : Request) (conds : List Condition)
    (logic : String) (result : Bool) : Except String Bool :=
  match conds with
  | [] => .ok result
  | .logicSwitch l :: rest => evalCondLoop host req rest l result
  | c :: rest =>
    match evalCondOne host req c with
    | .error e => .error e
    | .ok conditionResult =>
      if logic == "and" then
        if !(result && conditionResult) then .ok (result && conditionResult)
        else evalCondLoop host req rest logic (result && conditionResult)
      else
        if result || conditionResult then .ok (result || conditionResult)
        else evalCondLoop host req rest logic (result || conditionResult)

/-- One entry of the loop: a nested group is evaluated under `"and"`
logic (initial accumulator `"and" === "and"`, i.e. `true`), a leaf via
`evaluateCondition`. -/
def evalCondOne (host : JSHost) (req : Request) (c : Condition) :
    Except String Bool :=
  match c with
  | .group gs => evalCondLoop host req gs "and" true
  | .leaf f o v => evaluateCondition host req f o v
  | .logicSwitch _ => .ok false

end

/-- `evaluateConditions(request, conditions, logic)` from
`src/condition-evaluator.js` lines 250-293: `result` starts as
`logic === "and"`. -/
def evaluateConditions (host : JSHost) (req : Request)
    (conds : List Condition) (logic : String) : Except String Bool :=
  evalCondLoop host req conds logic (logic == "and")

/-! ## Rules and the rule matcher (`findMatchingRule`) -/

/-- The closed set of action types of the data model. -/
inductive ActionType where
  | allow | log | simulate | block | rateLimit | customResponse
  deriving Repr, DecidableEq

/-- An action: the type tag plus the fields used by
`customResponse`-style actions (`statusCode` is stored numerically, as
normalized by the config store). -/
structure Action where
  type : ActionType
  statusCode : Nat := 0
  body : String := ""
  bodyType : String := ""
  deriving Repr, DecidableEq

/-- `initialMatch` / one entry of `elseIfActions`: a condition list, an
optional `logic` field and an action. -/
structure MatchBranch where
  conditions : List Condition
  logic : Option String := none
  action : Action
  deriving Repr

/-- A rule, with `initialMatch` optional so that the
`isValidRuleStructure` check is meaningful. -/
structure Rule where
  name : String
  limit : Nat := 1
  period : Nat := 1
  fingerprintParams : Option (List String) := none
  initialMatch : Option MatchBranch
  elseIfActions : List MatchBranch := []
  elseAction : Option Action := none
  deriving Repr

/-- The `{...rule, actionType, action}` object returned by
`findMatchingRule`. -/
structure MatchResult where
  rule : Rule
  action : Action
  deriving Repr

/-- `isValidRuleStructure` from `src/config-manager.js`: a rule needs
`initialMatch`, and `elseIfActions` requires `elseAction`. -/
def isValidRuleStructure (r : Rule) : Bool :=
  match r.initialMatch with
  | none => false
  | some _ => !(r.elseIfActions.length > 0 && r.elseAction.isNone)

/-- `actionType === "log" || actionType === "simulate"`. -/
def isObservational (t : ActionType) : Bool :=
  t == .log || t == .simulate

/-- JS `x || d` on an optional string field (empty string is falsy). -/
def jsStrOrDefault (o : Option String) (d : String) : String :=
  match o with
  | some s => if s = "" then d else s
  | none => d

/-- The inner `for (const elseIfAction of rule.elseIfActions)` loop of
`findMatchingRule`: evaluates each else-if branch under its own
`logic || "and"`; a matching terminal action returns immediately
(`Sum.inr`), a matching log/simulate branch replaces the provisional
last log/simulate result and the loop continues (`Sum.inl` carries the
final provisional value). -/
def elseIfLoop (host : JSHost) (req : Request) (rule : Rule)
    (branches : List MatchBranch) (lastLogSim : Option MatchResult) :
    Except String (Option MatchResult ⊕ MatchResult) :=
  match branches with
  | [] => .ok (.inl lastLogSim)
  | b :: rest =>
    match evaluateConditions host req b.conditions (jsStrOrDefault b.logic "and") with
    | .error e => .error e
    | .ok elseIfMatches =>
      if elseIfMatches then
        if isObservational b.action.type then
          elseIfLoop host req rule rest (some ⟨rule, b.action⟩)
        else .ok (.inr ⟨rule, b.action⟩)
      else elseIfLoop host req rule rest lastLogSim

/-- The walk of `findMatchingRule` from `src/condition-evaluator.js`
lines 6-93, with the two accumulators `lastLogOrSimulateAction` and
`lastElseAction` explicit.  Invalid rules are skipped; the initial
match is evaluated with hard-coded `"and"` logic (source line 26); a
terminal action returns immediately; `log`/`simulate` update the
provisional result; `rule.elseAction` is recorded whenever present
(source line 74); at the end the last else action is preferred over the
last log/simulate result.  The `initialMatch = none` arm is unreachable
(validity was just checked); JS would throw there. -/
def findMatchingRuleAux (host : JSHost) (req : Request) :
    List Rule → Option MatchResult → Option MatchResult →
    Except String (Option MatchResult)
  | [], lastLogSim, lastElse =>
    .ok (match lastElse with
         | some e => some e
         | none => lastLogSim)
  | rule :: rest, lastLogSim, lastElse =>
    if isValidRuleStructure rule then
      match rule.initialMatch with
      | none => .error typeErrorMsg
      | some im =>
        let newElse : Option MatchResult :=
          match rule.elseAction with
          | some a => some ⟨rule, a⟩
          | none => lastElse
        match evaluateConditions host req im.conditions "and" with
        | .error e => .error e
        | .ok initialMatches =>
          if initialMatches then
            if isObservational im.action.type then
              findMatchingRuleAux host req rest (some ⟨rule, im.action⟩) newElse
            else .ok (some ⟨rule, im.action⟩)
          else if rule.elseIfActions.length > 0 then
            match elseIfLoop host req rule rule.elseIfActions lastLogSim with
            | .error e => .error e
            | .ok (.inr result) => .ok (some result)
            | .ok (.inl newLogSim) =>
              findMatchingRuleAux host req rest newLogSim newElse
          else findMatchingRuleAux host req rest lastLogSim newElse
    else findMatchingRuleAux host req rest lastLogSim lastElse

/-- `findMatchingRule(request, config)`: walk the ruleset with empty
accumulators.  (The `!config || !Array.isArray(config.rules)` guard is
subsumed by the typed rule list.) -/
def findMatchingRule (host : JSHost) (req : Request) (rules : List Rule) :
    Except String (Option MatchResult) :=
  findMatchingRuleAux host req rules none none

/-! ### Claim-side formulation of the rule matcher (for C3)

The claim describes the matcher through the sequence of actions whose
branches match: a terminal one is returned immediately, log/simulate
ones are recorded provisionally, and after the walk the last recorded
else fallback is preferred over the last log/simulate result. -/

/-- The matched actions of a list of else-if branches, in order,
stopping at (and including) the first terminal one — evaluation
returns there, so later branches are never evaluated. -/
def branchAttempts (host : JSHost) (req : Request) :
    List MatchBranch → Except String (List Action)
  | [] => .ok []
  | b :: rest =>
    match evaluateConditions host req b.conditions (jsStrOrDefault b.logic "and") with
    | .error e => .error e
    | .ok matched =>
      if matched then
        if isObservational b.action.type then
          match branchAttempts host req rest with
          | .error e => .error e
          | .ok acts => .ok (b.action :: acts)
        else .ok [b.action]
      else branchAttempts host req rest

/-- The matched actions of one rule: the initial branch alone when it
matches, otherwise the matching else-if branches. -/
def ruleAttempts (host : JSHost) (req : Request) (rule : Rule) :
    Except String (List Action) :=
  match rule.initialMatch with
  | none => .error typeErrorMsg
  | some im =>
    match evaluateConditions host req im.conditions "and" with
    | .error e => .error e
    | .ok initialMatches =>
      if initialMatches then .ok [im.action]
      else if rule.elseIfActions.length > 0 then
        branchAttempts host req rule.elseIfActions
      else .ok []

/-- Scan the matched actions of a rule: a terminal action is the
result; each log/simulate action replaces the provisional
last-log/simulate record. -/
def foldAttempts (rule : Rule) :
    List Action → Option MatchResult → Option MatchResult ⊕ MatchResult
  | [], logSim => .inl logSim
  | a :: rest, logSim =>
    if isObservational a.type then foldAttempts rule rest (some ⟨rule, a⟩)
    else .inr ⟨rule, a⟩

/-- The rule matcher as described by the spec: walk the valid rules in
order; the first terminal matched action is returned with its rule
immediately; otherwise, after the full walk, the last recorded
elseAction fallback is preferred, then the last log/simulate result,
then no match. -/
def walkSpec (host : JSHost) (req : Request) :
    List Rule → Option MatchResult → Option MatchResult →
    Except String (Option MatchResult)
  | [], logSim, lastElse =>
    .ok (match lastElse with
         | some e => some e
         | none => logSim)
  | rule :: rest, logSim, lastElse =>
    if isValidRuleStructure rule then
      match ruleAttempts host req rule with
      | .error e => .error e
      | .ok acts =>
        match foldAttempts rule acts logSim with
        | .inr result => .ok (some result)
        | .inl newLogSim =>
          walkSpec host req rest newLogSim
            (match rule.elseAction with
             | some a => some ⟨rule, a⟩
             | none => lastElse)
    else walkSpec host req rest logSim lastElse

/-- The else-if loop computes exactly the fold of the branch attempt
list. -/
lemma elseIfLoop_eq_attempts (host : JSHost) (req : Request) (rule : Rule)
    (branches : List MatchBranch) (logSim : Option MatchResult) :
    elseIfLoop host req rule branches logSim
      = match branchAttempts host req branches with
        | .error e => .error e
        | .ok acts => .ok (foldAttempts rule acts logSim) := by
  induction branches generalizing logSim with
  | nil => rfl
  | cons b rest ih =>
    simp only [elseIfLoop, branchAttempts]
    cases hev : evaluateConditions host req b.conditions
        (jsStrOrDefault b.logic "and") with
    | error e => rfl
    | ok matched =>
      cases matched with
      | false => simpa using ih logSim
      | true =>
        cases hobs : isObservational b.action.type with
        | true =>
          rw [ih (some ⟨rule, b.action⟩)]
          cases hba : branchAttempts host req rest with
          | error e => simp
          | ok acts => simp [foldAttempts, hobs]
        | false => simp [foldAttempts, hobs]

/-- C3: the rule matcher walks the ruleset in order, returns the first
matching terminal (non-log/simulate) action with its rule immediately,
records matching log/simulate actions as the provisional last
log/simulate result while continuing, and after the full walk prefers
the last recorded elseAction fallback over the last log/simulate
result, returning no match when neither exists. -/
theorem findMatchingRule_eq_walkSpec (host : JSHost) (req : Request)
    (rules : List Rule) :
    findMatchingRule host req rules = walkSpec host req rules none none := by
  suffices h : ∀ rules logSim lastElse,
      findMatchingRuleAux host req rules logSim lastElse
        = walkSpec host req rules logSim lastElse by
    exact h rules none none
  intro rules
  induction rules with
  | nil => intro logSim lastElse; rfl
  | cons rule rest ih =>
    intro logSim lastElse
    simp only [findMatchingRuleAux, walkSpec]
    cases hv : isValidRuleStructure rule with
    | false => simp [ih]
    | true =>
      cases him : rule.initialMatch with
      | none =>
        exfalso
        unfold isValidRuleStructure at hv
        rw [him] at hv
        simp at hv
      | some im =>
        simp only [ruleAttempts, him]
        cases hev : evaluateConditions host req im.conditions "and" with
        | error e => simp
        | ok initialMatches =>
          cases initialMatches with
          | true =>
            cases hobs : isObservational im.action.type with
            | true => simp [foldAttempts, hobs, ih]
            | false => simp [foldAttempts, hobs]
          | false =>
            by_cases hlen : rule.elseIfActions.length > 0
            · rw [elseIfLoop_eq_attempts]
              cases hba : branchAttempts host req rule.elseIfActions with
              | error e => simp [hlen]
              | ok acts =>
                cases hfa : foldAttempts rule acts logSim with
                | inl newLogSim => simp [hlen, hfa, ih]
                | inr result => simp [hlen, hfa]
            · simp [hlen, foldAttempts, ih]

/-! ### Fixtures for concrete runs -/

/-- A concrete host: `parseFloat` always NaN, every regex pattern
invalid, every body non-JSON, hash the identity.  Only congruence of
`hash` matters in the theorems that use it. -/
def testHost : JSHost :=
  { parseFloat := fun _ => none
    regexCompile := fun _ => none
    jsonParse := fun _ => none
    hash := fun s => s }

def testReq : Request :=
  { url := "https://example.com/api/x"
    urlObj := .obj [("pathname", .str "/api/x"), ("hostname", .str "example.com")]
    method := "GET"
    headers := [("CF-Connecting-IP", "1.2.3.4"), ("User-Agent", "UA1")]
    cf := .obj []
    body := "hello" }

def orLogicConds : List Condition :=
  [.leaf "method" "eq" "POST", .leaf "method" "eq" "GET"]

/-- A rule whose `initialMatch.logic` is `"or"`, with a terminal
`block` action; its second condition holds for `testReq`. -/
def orLogicRule : Rule :=
  { name := "r-or"
    initialMatch := some
      { conditions := orLogicConds
        logic := some "or"
        action := { type := .block } } }

/-- C6 counterexample: for `testReq`, one of `orLogicRule`'s conditions
holds, so under the rule's declared `"or"` logic the conditions
evaluate to true — yet `findMatchingRule` returns no match, because it
evaluates `initialMatch.conditions` under hard-coded `"and"` logic
(source line 26) and ignores `initialMatch.logic`. -/
theorem findMatchingRule_or_logic_cex :
    orLogicRule.initialMatch.map MatchBranch.logic = some (some "or")
  ∧ evaluateConditions testHost testReq orLogicConds "or" = .ok true
  ∧ findMatchingRule testHost testReq [orLogicRule] = .ok none :=
  ⟨rfl, rfl, rfl⟩

/-- Rewrite the `initialMatch.logic` field of a rule. -/
def mapInitialLogic (f : Option String → Option String) (r : Rule) : Rule :=
  { r with initialMatch :=
      r.initialMatch.map (fun im => { im with logic := f im.logic }) }

/-- The corresponding rewrite on a match result (the result embeds the
rule object). -/
def mapMRLogic (f : Option String → Option String) (m : MatchResult) :
    MatchResult :=
  ⟨mapInitialLogic f m.rule, m.action⟩

lemma isValidRuleStructure_mapInitialLogic
    (f : Option String → Option String) (r : Rule) :
    isValidRuleStructure (mapInitialLogic f r) = isValidRuleStructure r := by
  cases h : r.initialMatch <;>
    simp [isValidRuleStructure, mapInitialLogic, h]

lemma elseIfLoop_map_logic (host : JSHost) (req : Request)
    (f : Option String → Option String) (rule : Rule)
    (branches : List MatchBranch) :
    ∀ logSim : Option MatchResult,
      elseIfLoop host req (mapInitialLogic f rule) branches
          (logSim.map (mapMRLogic f))
        = (elseIfLoop host req rule branches logSim).map
            (Sum.map (Option.map (mapMRLogic f)) (mapMRLogic f)) := by
  induction branches with
  | nil => intro logSim; simp [elseIfLoop, Except.map, Sum.map]
  | cons b rest ih =>
    intro logSim
    simp only [elseIfLoop]
    cases hev : evaluateConditions host req b.conditions
        (jsStrOrDefault b.logic "and") with
    | error e => simp [Except.map]
    | ok matched =>
      cases matched with
      | false => simpa using ih logSim
      | true =>
        cases hobs : isObservational b.action.type with
        | true =>
          have := ih (some ⟨rule, b.action⟩)
          simpa [mapMRLogic] using this
        | false => simp [Except.map, Sum.map, mapMRLogic]

lemma findMatchingRuleAux_map_logic (host : JSHost) (req : Request)
    (f : Option String → Option String) :
    ∀ (rules : List Rule) (logSim lastElse : Option MatchResult),
      findMatchingRuleAux host req (rules.map (mapInitialLogic f))
          (logSim.map (mapMRLogic f)) (lastElse.map (mapMRLogic f))
        = (findMatchingRuleAux host req rules logSim lastElse).map
            (Option.map (mapMRLogic f)) := by
  intro rules
  induction rules with
  | nil =>
    intro logSim lastElse
    cases lastElse <;> simp [findMatchingRuleAux, Except.map]
  | cons rule rest ih =>
    intro logSim lastElse
    simp only [List.map_cons, findMatchingRuleAux,
      isValidRuleStructure_mapInitialLogic]
    have hne : (match (mapInitialLogic f rule).elseAction with
        | some a => some (⟨mapInitialLogic f rule, a⟩ : MatchResult)
        | none => lastElse.map (mapMRLogic f))
        = (match rule.elseAction with
           | some a => some (⟨rule, a⟩ : MatchResult)
           | none => lastElse).map (mapMRLogic f) := by
      cases hEA : rule.elseAction <;> simp [mapInitialLogic, mapMRLogic, hEA]
    cases hv : isValidRuleStructure rule with
    | false => simpa using ih logSim lastElse
    | true =>
      cases him : rule.initialMatch with
      | none =>
        exfalso
        unfold isValidRuleStructure at hv
        rw [him] at hv
        simp at hv
      | some im =>
        have him' : (mapInitialLogic f rule).initialMatch
            = some { im with logic := f im.logic } := by
          simp [mapInitialLogic, him]
        simp only [him, him']
        cases hev : evaluateConditions host req im.conditions "and" with
        | error e => simp [Except.map]
        | ok initialMatches =>
          cases initialMatches with
          | true =>
            cases hobs : isObservational im.action.type with
            | true =>
              have := ih (some ⟨rule, im.action⟩)
                (match rule.elseAction with
                 | some a => some ⟨rule, a⟩
                 | none => lastElse)
              simp only [hobs, if_pos rfl]
              simpa [mapMRLogic, hne] using this
            | false => simp [hobs, Except.map, mapMRLogic]
          | false =>
            have hels : (mapInitialLogic f rule).elseIfActions
                = rule.elseIfActions := rfl
            by_cases hlen : rule.elseIfActions.length > 0
            · simp only [hels, hlen, if_pos rfl]
              rw [elseIfLoop_map_logic]
              cases hloop : elseIfLoop host req rule rule.elseIfActions
                  logSim with
              | error e => simp [Except.map]
              | ok r =>
                cases r with
                | inl newLogSim =>
                  simp only [Except.map, Sum.map]
                  rw [hne]
                  exact ih newLogSim _
                | inr result => simp [Except.map, Sum.map]
            · simp only [hels, if_neg hlen]
              rw [hne]
              exact ih logSim _

/-- C6 (amended): `findMatchingRule` ignores `initialMatch.logic` — it
always evaluates `initialMatch.conditions` under `"and"`.  Rewriting
the `logic` field of every rule changes the outcome only by the same
rewrite inside the returned rule object; the matched rule and action
are unchanged.  (The claimed or-semantics fails: see the
counterexample.) -/
theorem findMatchingRule_ignores_initial_logic (host : JSHost)
    (req : Request) (f : Option String → Option String)
    (rules : List Rule) :
    findMatchingRule host req (rules.map (mapInitialLogic f))
      = (findMatchingRule host req rules).map (Option.map (mapMRLogic f)) :=
  findMatchingRuleAux_map_logic host req f rules none none

/-! ### C7: error behaviour of the leaf evaluator -/

/-- The leaf falls through the whole field dispatch of
`evaluateCondition`: none of the prefixes and none of the
`fieldFunctions` keys. -/
def fieldUnknown (field : String) : Bool :=
  !(chStartsWith field "url." || chStartsWith field "headers."
    || chStartsWith field "cf." || chStartsWith field "body."
    || decide (field = "clientIP") || decide (field = "method")
    || decide (field = "url") || decide (field = "body")
    || decide (field = "headers") || decide (field = "cf"))

set_option maxHeartbeats 2000000

lemma applyOperator_matches (host : JSHost) (a : JSValue)
    (value field : String) :
    applyOperator host "matches" a value field
      = match host.regexCompile value with
        | none => .ok false
        | some test => .ok (test (jsString a)) := rfl

/-- C7 counterexample: a `body.<json-pointer>` leaf over a non-JSON
request body makes `evaluateCondition` throw — the
`JSON.parse(bodyContent)` call (source line 310) is unguarded, so the
SyntaxError propagates instead of the leaf evaluating to false. -/
theorem evaluateCondition_throws_cex :
    testReq.body = "hello"
  ∧ testHost.jsonParse testReq.body = none
  ∧ evaluateCondition testHost testReq "body.a" "eq" "x"
      = .error jsonParseErrorMsg :=
  ⟨rfl, rfl, rfl⟩

/-- C7 (amended): `evaluateCondition` fails closed (returns `ok false`
without throwing) for a leaf whose field is outside the field
namespace, and — on fields other than `body.*` and bare `cf`, whose
resolution itself can throw — for unknown operators and for `matches`
leaves whose pattern does not compile. -/
theorem evaluateCondition_fails_closed (host : JSHost) (req : Request)
    (field op value : String) :
    (fieldUnknown field = true →
       evaluateCondition host req field op value = .ok false)
  ∧ (chStartsWith field "body." = false → field ≠ "cf" →
       operatorKnown op = false →
       evaluateCondition host req field op value = .ok false)
  ∧ (chStartsWith field "body." = false → field ≠ "cf" →
       op = "matches" → host.regexCompile value = none →
       evaluateCondition host req field op value = .ok false) := by
  refine ⟨?_, ?_, ?_⟩
  · intro h
    unfold fieldUnknown at h
    simp only [Bool.not_eq_eq_eq_not, Bool.not_true, Bool.or_eq_false_iff,
      decide_eq_false_iff_not] at h
    obtain ⟨⟨⟨⟨⟨⟨⟨⟨⟨h1, h2⟩, h3⟩, h4⟩, h5⟩, h6⟩, h7⟩, h8⟩, h9⟩, h10⟩ := h
    simp only [evaluateCondition]
    rw [if_neg (by simp [h1]), if_neg (by simp [h2]), if_neg (by simp [h3]),
        if_neg (by simp [h4]), if_neg h5, if_neg h6, if_neg h7, if_neg h8,
        if_neg h9, if_neg h10]
  · intro hbody hcf hop
    simp only [evaluateCondition]
    split_ifs <;> simp_all
  · intro hbody hcf hmatches hre
    subst hmatches
    have hknown : operatorKnown "matches" = true := rfl
    simp only [evaluateCondition]
    split_ifs <;> simp_all [applyOperator_matches]

/-- C7 witness: an unknown field, an unknown operator, and an invalid
regex pattern each evaluate to false on a concrete request. -/
theorem evaluateCondition_fails_closed_witness :
    evaluateCondition testHost testReq "frobnicate" "eq" "x" = .ok false
  ∧ evaluateCondition testHost testReq "method" "zzz" "x" = .ok false
  ∧ evaluateCondition testHost testReq "method" "matches" "(" = .ok false :=
  ⟨(evaluateCondition_fails_closed testHost testReq "frobnicate" "eq" "x").1
      rfl,
   (evaluateCondition_fails_closed testHost testReq "method" "zzz" "x").2.1
      rfl (by decide) rfl,
   (evaluateCondition_fails_closed testHost testReq "method" "matches"
      "(").2.2 rfl (by decide) rfl rfl⟩

/-! ## Fingerprinting (`src/fingerprint.js`) and CounterKeys
(`src/rate-limiter.js`, `getClientIdentifier`) -/

/-- JS `a || b` where the fallback is a JS value. -/
def jsOrJS (a : Option String) (b : JSValue) : JSValue :=
  match a with
  | some s => if s = "" then b else .str s
  | none => b

/-- `getClientIP` from `src/fingerprint.js`: `CF-Connecting-IP ||
True-Client-IP || X-Forwarded-For[0] || 'unknown'`. -/
def fpGetClientIP (req : Request) : String :=
  jsStrOrDefault
    (jsOrElse (jsOrElse (headersGet req.headers "CF-Connecting-IP")
        (headersGet req.headers "True-Client-IP"))
        (xffFirst (headersGet req.headers "X-Forwarded-For")))
    "unknown"

/-- `getNestedValue` from `src/fingerprint.js`: each step requires the
current value to be a (truthy) object containing the key, otherwise the
result is `undefined`. -/
def fpGetNestedValue (obj : JSValue) (path : String) : JSValue :=
  (chSplitChar path '.').foldl
    (fun cur key =>
      match cur with
      | .obj fs => (objLookup fs key).getD .undefined
      | _ => .undefined)
    obj

/-- Resolution of one fingerprint parameter name
(`src/fingerprint.js` lines 66-93), before the string coercion.  An
unrecognized name falls through to `getNestedValue(request, param)`;
the request object model exposes no further enumerable properties, so
that is `undefined`. -/
def fpResolveParam (host : JSHost) (req : Request) (cfData : JSValue)
    (param : String) : JSValue :=
  if chStartsWith param "cf." then fpGetNestedValue cfData (param.drop 3)
  else if chStartsWith param "headers." then
    optStrToJS (headersGet req.headers (param.drop 8))
  else if chStartsWith param "url." then
    fpGetNestedValue req.urlObj (param.drop 4)
  else if param = "method" then .str req.method
  else if param = "url" then .str req.url
  else if param = "body" then .str (host.hash req.body)
  else if param = "clientIP" then .str (fpGetClientIP req)
  else .undefined

/-- `value !== undefined && value !== null ? value.toString() : ''`. -/
def fpComponentString (v : JSValue) : String :=
  match v with
  | .undefined => ""
  | .jsNull => ""
  | v => jsString v

def chIntercalate (sep : String) : List String → String
  | [] => ""
  | [s] => s
  | s :: rest => s ++ sep ++ chIntercalate sep rest

/-- The component list built by `generateFingerprint`
(`src/fingerprint.js` lines 55-107): the resolved parameters, with the
client IP force-included when absent (line 97) and
`Math.floor(Date.now()/1000)` appended (line 103). -/
def generateFingerprintComponents (host : JSHost) (req : Request)
    (cfData : JSValue) (parameters : List String) (nowMs : Nat) :
    List String :=
  let clientIP := fpGetClientIP req
  let timestamp := nowMs / 1000
  let components := parameters.map
    (fun p => fpComponentString (fpResolveParam host req cfData p))
  let components :=
    if components.contains clientIP then components
    else clientIP :: components
  components ++ [toString timestamp]

/-- The string handed to `hashValue`: components joined by `"|"`. -/
def fpHashInput (host : JSHost) (req : Request) (cfData : JSValue)
    (parameters : List String) (nowMs : Nat) : String :=
  chIntercalate "|"
    (generateFingerprintComponents host req cfData parameters nowMs)

/-- `generateFingerprint(request, env, fingerprintConfig, cfData)`:
`fingerprintConfig.parameters || ['clientIP']`, resolve, join, hash. -/
def generateFingerprint (host : JSHost) (req : Request) (cfData : JSValue)
    (paramsOpt : Option (List String)) (nowMs : Nat) : String :=
  host.hash (fpHashInput host req cfData (paramsOpt.getD ["clientIP"]) nowMs)

/-- C4: the fingerprint is not pure in `(request, spec, cf)`: the
hashed component list embeds the wall-clock second, so the same
request, parameter list and cf metadata hash different strings when the
call happens one second later.  (`src/fingerprint.js` lines 61 and
103.) -/
theorem generateFingerprint_time_dependent :
    generateFingerprintComponents testHost testReq (.obj []) ["method"] 0
        = ["1.2.3.4", "GET", "0"]
  ∧ generateFingerprintComponents testHost testReq (.obj []) ["method"] 1000
        = ["1.2.3.4", "GET", "1"]
  ∧ fpHashInput testHost testReq (.obj []) ["method"] 0
        ≠ fpHashInput testHost testReq (.obj []) ["method"] 1000 := by
  refine ⟨rfl, rfl, ?_⟩
  decide

/-- `getClientIP` from `src/rate-limiter.js` lines 548-556:
`true-client-ip || cf-connecting-ip || x-forwarded-for[0] ||
cfData.clientIp || 'unknown'` (note the different header order from the
fingerprinter's version). -/
def rlGetClientIP (req : Request) (cfData : JSValue) : JSValue :=
  jsOrJS
    (jsOrElse (jsOrElse (headersGet req.headers "true-client-ip")
        (headersGet req.headers "cf-connecting-ip"))
        (xffFirst (headersGet req.headers "x-forwarded-for")))
    (if jsTruthy (jsIndex cfData "clientIp") then jsIndex cfData "clientIp"
     else .str "unknown")

/-- Resolution of one `rule.fingerprint.parameters` entry inside
`getClientIdentifier` (`src/rate-limiter.js` lines 429-452): `none`
models the `continue` taken for `body`/`body.*` (not implemented) and
unsupported names. -/
def gciParamValue (req : Request) (cfData : JSValue) (name : String) :
    Option JSValue :=
  if chStartsWith name "headers." then
    some (optStrToJS (headersGet req.headers (name.drop 8)))
  else if chStartsWith name "url." then
    some (jsIndex req.urlObj (name.drop 4))
  else if chStartsWith name "cf." then
    some (getNestedValue cfData (name.drop 3))
  else if name = "clientIP" then some (rlGetClientIP req cfData)
  else if name = "method" then some (.str req.method)
  else if name = "url" then some (.str req.url)
  else none

/-- The `fingerprintComponents` list: parameters whose value is truthy
become `"<name>:<value>"` strings (`if (value)
fingerprintComponents.push(...)`). -/
def gciComponents (req : Request) (cfData : JSValue)
    (names : List String) : List String :=
  names.filterMap (fun name =>
    match gciParamValue req cfData name with
    | none => none
    | some v =>
      if jsTruthy v then some (name ++ ":" ++ jsString v) else none)

/-- `getClientIdentifier` from `src/rate-limiter.js` lines 426-469:
with fingerprint parameters and at least one resolved component, a
`rate_limit:<name>:fingerprint:<hash>` key where the component strings
are passed to `generateFingerprint` as its parameter list; otherwise
the `rate_limit:<name>:ip:<clientIP>` fallback. -/
def getClientIdentifier (host : JSHost) (req : Request) (rule : Rule)
    (cfData : JSValue) (nowMs : Nat) : String :=
  match rule.fingerprintParams with
  | some names =>
    let comps := gciComponents req cfData names
    if comps.length > 0 then
      "rate_limit:" ++ rule.name ++ ":fingerprint:"
        ++ generateFingerprint host req cfData (some comps) nowMs
    else
      "rate_limit:" ++ rule.name ++ ":ip:"
        ++ jsString (rlGetClientIP req cfData)
  | none =>
    "rate_limit:" ++ rule.name ++ ":ip:"
      ++ jsString (rlGetClientIP req cfData)

/-- A rule fingerprinting only on the `x-key` header. -/
def headerKeyRule : Rule :=
  { name := "r5"
    fingerprintParams := some ["headers.x-key"]
    initialMatch := some { conditions := [], action := { type := .block } } }

/-- `testReq` with a different client IP and no other change. -/
def testReqOtherIP : Request :=
  { testReq with headers := [("CF-Connecting-IP", "5.6.7.8"), ("User-Agent", "UA1")] }

/-- C5 counterexample: two requests that agree on every attribute named
in the fingerprint parameter list (`headers.x-key`, absent in both) but
differ in client IP get DIFFERENT CounterKeys: no component resolves
truthy, so `getClientIdentifier` falls back to the
`rate_limit:<name>:ip:<clientIP>` key, which embeds the unlisted client
IP. -/
theorem getClientIdentifier_ip_cex :
    headersGet testReq.headers "x-key" = headersGet testReqOtherIP.headers "x-key"
  ∧ getClientIdentifier testHost testReq headerKeyRule (.obj []) 0
      = "rate_limit:r5:ip:1.2.3.4"
  ∧ getClientIdentifier testHost testReqOtherIP headerKeyRule (.obj []) 0
      = "rate_limit:r5:ip:5.6.7.8"
  ∧ getClientIdentifier testHost testReq headerKeyRule (.obj []) 0
      ≠ getClientIdentifier testHost testReqOtherIP headerKeyRule (.obj []) 0 := by
  refine ⟨rfl, rfl, rfl, ?_⟩
  decide

/-- Everything the CounterKey of a rule with fingerprint parameters
actually depends on besides the rule itself: the resolved components,
the rate-limiter client IP, the fingerprinter client IP, the
re-resolution of the component strings inside `generateFingerprint`,
and the wall-clock second. -/
def counterKeyDeps (host : JSHost) (req : Request) (cfData : JSValue)
    (names : List String) (nowMs : Nat) :
    List String × String × String × List String × Nat :=
  (gciComponents req cfData names,
   jsString (rlGetClientIP req cfData),
   fpGetClientIP req,
   (gciComponents req cfData names).map
     (fun c => fpComponentString (fpResolveParam host req cfData c)),
   nowMs / 1000)

/-- C5 (amended): the CounterKey is a function of the rule and
`counterKeyDeps` — in particular the client IP is always incorporated
(as the ip-fallback key when no listed parameter resolves truthy and
forced into the fingerprint otherwise), so only requests that also
agree on the client IP and are keyed in the same second are guaranteed
the same CounterKey; agreement on the listed attributes alone is not
sufficient (see the counterexample). -/
theorem getClientIdentifier_deps (host : JSHost) (rule : Rule)
    (reqA reqB : Request) (cfA cfB : JSValue) (tA tB : Nat)
    (names : List String)
    (hparams : rule.fingerprintParams = some names)
    (hdeps : counterKeyDeps host reqA cfA names tA
        = counterKeyDeps host reqB cfB names tB) :
    getClientIdentifier host reqA rule cfA tA
      = getClientIdentifier host reqB rule cfB tB := by
  unfold counterKeyDeps at hdeps
  simp only [Prod.mk.injEq] at hdeps
  obtain ⟨hcomps, hip, hfip, hres, htime⟩ := hdeps
  unfold getClientIdentifier
  rw [hparams]
  simp only [hcomps, hip]
  by_cases hlen : (gciComponents reqB cfB names).length > 0
  · rw [if_pos hlen, if_pos hlen]
    unfold generateFingerprint fpHashInput generateFingerprintComponents
    simp only [Option.getD_some]
    rw [← hcomps, hres, hfip, htime, hcomps]
  · rw [if_neg hlen, if_neg hlen]

/-- C5 (amended) witness: identical request, cf data and time trivially
share all dependencies and get the same key. -/
theorem getClientIdentifier_deps_witness :
    getClientIdentifier testHost testReq headerKeyRule (.obj []) 3
      = getClientIdentifier testHost testReq headerKeyRule (.obj []) 3 :=
  getClientIdentifier_deps testHost headerKeyRule testReq testReq
    (.obj []) (.obj []) 3 3 ["headers.x-key"] rfl rfl

/-! ## The customResponse action handler
(`src/condition-evaluator.js`, `actionHandlers.customResponse`) -/

/-- A synthesized HTTP response: status, body, content type. -/
structure SynthResponse where
  status : Nat
  body : String
  contentType : String
  deriving Repr, DecidableEq

/-- `actionHandlers.customResponse` from `src/condition-evaluator.js`
lines 111-123, invoked by the pipeline's denial branch
(`actionHandlers[matchingRule.actionType](env, request, rateLimitInfo,
matchingRule)`): a response from the rule's `statusCode`
(`parseInt` of the store-normalized number), `body`, and a content
type switched on `bodyType`. -/
def customResponseHandler (matchingRule : MatchResult) : SynthResponse :=
  { status := matchingRule.action.statusCode
    body := matchingRule.action.body
    contentType :=
      if matchingRule.action.bodyType = "json" then "application/json"
      else if matchingRule.action.bodyType = "html" then "text/html"
      else "text/plain" }

/-- The content-type mapping as the claim states it. -/
def contentTypeForSpec (bodyType : String) : String :=
  if bodyType = "json" then "application/json"
  else if bodyType = "html" then "text/html"
  else "text/plain"

/-- C9: for a denied request whose matched rule's action is
`customResponse`, the dispatcher synthesizes the rule's `statusCode`
and `body` with `Content-Type` `application/json` for `bodyType`
`"json"`, `text/html` for `"html"`, and `text/plain` otherwise; in
particular `statusCode 418, body "tea", bodyType "text"` yields a 418
`text/plain` response with body `tea`. -/
theorem customResponse_synthesis (m : MatchResult) :
    customResponseHandler m
      = { status := m.action.statusCode
          body := m.action.body
          contentType := contentTypeForSpec m.action.bodyType }
  ∧ customResponseHandler
      ⟨{ name := "tea-rule", initialMatch := none },
       { type := .customResponse, statusCode := 418, body := "tea",
         bodyType := "text" }⟩
      = { status := 418, body := "tea", contentType := "text/plain" } :=
  ⟨rfl, rfl⟩




end DoRlWorker
